import Mathlib

/-!
Shallow embedding of the session-analytics and scoring core of the
MyWebServiceDemo repository (src/strategies, src/session_module,
src/decorators), together with theorems settling the frozen claims
about its natural-language specification.

Conventions of the embedding:
* wall-clock instants and durations are rationals (seconds);
* calendar dates are integers (day numbers);
* Python dicts with ordered insertion become association lists;
* fallible Python code (raise) becomes Except / Option;
* Python round() (banker's rounding, half to even) is pyRound.
-/

namespace DiaNoite

/-- Python round() with no digits: round half to even, on exact rationals. -/
def pyRound (q : ℚ) : ℤ :=
  let f : ℤ := ⌊q⌋
  let frac : ℚ := q - f
  if frac < 1 / 2 then f
  else if 1 / 2 < frac then f + 1
  else if f % 2 = 0 then f else f + 1

/-- Python round(x, 2): banker's rounding at two decimal digits. -/
def pyRoundTo2 (q : ℚ) : ℚ := (pyRound (q * 100) : ℚ) / 100

/-- Scoring context passed to strategies (score_calculator.py docstring):
time_taken, time_limit, is_correct, attempts, difficulty, streak.
In the session flow every key is present, so the embedding uses a plain
structure. -/
structure ScoringContext where
  time_taken : ℚ
  time_limit : ℚ
  is_correct : Bool
  attempts : ℕ
  difficulty : ℤ
  streak : ℕ
deriving DecidableEq

/-- The four concrete scoring strategies of src/strategies. -/
inductive BaseStrategy where
  | timeBased
  | accuracyBased
  | streakBased
  | difficultyBased
deriving DecidableEq

/-- TimeBasedScoringStrategy.calculate_score (time_based_scoring.py). -/
def timeBasedScore (c : ScoringContext) : ℤ :=
  if c.is_correct = false then 0
  else if c.time_taken ≥ c.time_limit then 0
  else
    let time_percentage : ℚ := c.time_taken / c.time_limit * 100
    if time_percentage ≤ 25 then 100
    else if time_percentage ≤ 50 then 75
    else if time_percentage ≤ 75 then 50
    else 25

/-- AccuracyScoringStrategy.calculate_score (accuracy_scoring.py). -/
def accuracyScore (c : ScoringContext) : ℤ :=
  if c.is_correct = false then 0
  else if c.attempts = 1 then 100
  else if c.attempts = 2 then 60
  else if c.attempts = 3 then 30
  else 0

/-- StreakScoringStrategy.calculate_score (streak_scoring.py). -/
def streakScore (c : ScoringContext) : ℤ :=
  if c.is_correct = false then 0
  else
    let base_score : ℤ := 50
    let bonus : ℤ :=
      if c.streak ≥ 10 then 50
      else if c.streak ≥ 6 then 30
      else if c.streak ≥ 4 then 20
      else if c.streak ≥ 2 then 10
      else 0
    min (base_score + bonus) 100

/-- DifficultyBasedScoringStrategy.calculate_score (difficulty_scoring.py). -/
def difficultyScore (c : ScoringContext) : ℤ :=
  if c.is_correct = false then 0
  else if c.difficulty = 1 then 40
  else if c.difficulty = 2 then 60
  else if c.difficulty = 3 then 80
  else if c.difficulty = 4 then 90
  else if c.difficulty = 5 then 100
  else 80

/-- Dispatch to the concrete strategy's calculate_score. -/
def baseScore : BaseStrategy → ScoringContext → ℤ
  | .timeBased, c => timeBasedScore c
  | .accuracyBased, c => accuracyScore c
  | .streakBased, c => streakScore c
  | .difficultyBased, c => difficultyScore c

/-- get_strategy_name of each concrete strategy. -/
def baseName : BaseStrategy → String
  | .timeBased => "time_based"
  | .accuracyBased => "accuracy_based"
  | .streakBased => "streak_based"
  | .difficultyBased => "difficulty_based"

/-- Sum of the weights of a composite's (strategy, weight) list. -/
def weightSum (ws : List (BaseStrategy × ℚ)) : ℚ :=
  (ws.map Prod.snd).sum

/-- The weighted total accumulated by CompositeScoringStrategy.calculate_score
before rounding (composite_scoring.py lines 51-56). -/
def weightedTotal (ws : List (BaseStrategy × ℚ)) (c : ScoringContext) : ℚ :=
  (ws.map (fun sw => (baseScore sw.1 c : ℚ) * sw.2)).sum

/-- CompositeScoringStrategy.calculate_score: int(round(total_score)). -/
def compositeScore (ws : List (BaseStrategy × ℚ)) (c : ScoringContext) : ℤ :=
  pyRound (weightedTotal ws c)

/-- The weight validation of CompositeScoringStrategy.__init__:
0.99 <= total_weight <= 1.01. -/
def weightsValid (ws : List (BaseStrategy × ℚ)) : Prop :=
  99 / 100 ≤ weightSum ws ∧ weightSum ws ≤ 101 / 100

instance (ws : List (BaseStrategy × ℚ)) : Decidable (weightsValid ws) := by
  unfold weightsValid; infer_instance

/-- CompositeScoringStrategy.__init__ as a fallible constructor: validates
the weight sum before the composite can ever be used to score. -/
def mkComposite (ws : List (BaseStrategy × ℚ)) :
    Except String (List (BaseStrategy × ℚ)) :=
  if weightsValid ws then .ok ws
  else .error "Pesos devem somar 1.0"

/-- A strategy the ScoreCalculator can hold: one of the four concrete
strategies, or a composite built from (concrete strategy, weight) pairs —
exactly the shapes this repository constructs. -/
inductive Strategy where
  | base (b : BaseStrategy)
  | composite (ws : List (BaseStrategy × ℚ))
deriving DecidableEq

/-- calculate_score of a strategy. -/
def strategyScore : Strategy → ScoringContext → ℤ
  | .base b, c => baseScore b c
  | .composite ws, c => compositeScore ws c

/-- get_strategy_name of a strategy. -/
def strategyName : Strategy → String
  | .base b => baseName b
  | .composite ws =>
      "composite(" ++ String.intercalate "+" (ws.map (fun sw => baseName sw.1)) ++ ")"

/-- ScoringStrategy.get_performance_level (scoring_strategy.py). -/
def performanceLevel (score : ℤ) : String :=
  if score ≥ 90 then "excellent"
  else if score ≥ 70 then "good"
  else if score ≥ 50 then "fair"
  else "poor"

/-- One component line of CompositeScoringStrategy.get_breakdown. -/
structure BreakdownComponent where
  strategy : String
  score : ℤ
  weight : ℚ
  weighted_score : ℚ
deriving DecidableEq

/-- CompositeScoringStrategy.get_breakdown: total plus per-component rows. -/
def getBreakdown (ws : List (BaseStrategy × ℚ)) (c : ScoringContext) :
    ℤ × List BreakdownComponent :=
  (compositeScore ws c,
   ws.map (fun sw =>
     { strategy := baseName sw.1
       score := baseScore sw.1 c
       weight := sw.2
       weighted_score := (baseScore sw.1 c : ℚ) * sw.2 }))

/-- The dictionary returned by ScoreCalculator.get_detailed_result. -/
structure ScoreResult where
  score : ℤ
  performance : String
  strategy : String
  context : ScoringContext
  breakdown : Option (ℤ × List BreakdownComponent)
deriving DecidableEq

/-- ScoreCalculator.get_detailed_result (score_calculator.py): score via the
active strategy, performance level, strategy name, the input context, and a
breakdown exactly when the strategy is composite. -/
def getDetailedResult (st : Strategy) (c : ScoringContext) : ScoreResult :=
  { score := strategyScore st c
    performance := performanceLevel (strategyScore st c)
    strategy := strategyName st
    context := c
    breakdown :=
      match st with
      | .base _ => none
      | .composite ws => some (getBreakdown ws c) }

/-- The default composite strategy installed by SessionAnalytics.__init__:
time 0.4, accuracy 0.4, streak 0.2. -/
def defaultStrategy : Strategy :=
  .composite [(.timeBased, 2 / 5), (.accuracyBased, 2 / 5), (.streakBased, 1 / 5)]

/-- An interaction appended to a session's interaction list.  A
challenge_start records the challenge id, type, animal id, the iso
timestamp and the captured datetime start instant (both modelled as the
same rational instant); a challenge_complete records correctness, the
timestamp and the score data; generic events carry a free-form data map. -/
inductive Interaction where
  | start (challenge_id : String) (challenge_type : String) (animal_id : ℤ)
      (timestamp : ℚ) (start_time : ℚ)
  | complete (challenge_id : String) (is_correct : Bool) (timestamp : ℚ)
      (score : ℤ) (performance : String)
  | generic (etype : String) (timestamp : ℚ) (data : List (String × String))
deriving DecidableEq

namespace Interaction

/-- Whether an interaction is a challenge_start with the given challenge id
(the predicate of the reverse scan in EventTracker._find_challenge_start). -/
def isStartFor (i : Interaction) (cid : String) : Bool :=
  match i with
  | .start c _ _ _ _ => c == cid
  | _ => false

/-- The captured start_time instant of a challenge_start (junk 0 on other
constructors; only ever read on starts, as in the source). -/
def startTimeD : Interaction → ℚ
  | .start _ _ _ _ st => st
  | _ => 0

/-- The challenge_type of a challenge_start (junk on other constructors). -/
def challengeTypeD : Interaction → String
  | .start _ ct _ _ _ => ct
  | _ => ""

/-- The dict key named type of an interaction. -/
def itype : Interaction → String
  | .start _ _ _ _ _ => "challenge_start"
  | .complete _ _ _ _ _ => "challenge_complete"
  | .generic t _ _ => t

end Interaction

/-- One derived entry of a session's challenge_times list. -/
structure ChallengeTiming where
  challenge_id : String
  challenge_type : String
  duration : ℚ
  is_correct : Bool
  attempts : ℕ
  score : ℤ
  performance : String
deriving DecidableEq

/-- Lookup in a Python-dict-like association list (dict.get). -/
def lookupA (m : List (String × ℕ)) (k : String) : Option ℕ :=
  (m.find? (fun p => p.1 == k)).map Prod.snd

/-- Insertion/update in a Python-dict-like association list: replace in
place when the key exists, append otherwise (Python dicts keep insertion
order). -/
def insertA (m : List (String × ℕ)) (k : String) (v : ℕ) :
    List (String × ℕ) :=
  if (m.find? (fun p => p.1 == k)).isSome then
    m.map (fun p => if p.1 == k then (p.1, v) else p)
  else m ++ [(k, v)]

/-- A session record, as created by SessionAnalytics.start_session /
SessionManager.create_session. -/
structure Session where
  session_id : String
  user_id : String
  start_time : ℚ
  end_time : Option ℚ
  duration : ℚ
  challenges_attempted : ℕ
  interactions : List Interaction
  challenge_times : List ChallengeTiming
  active : Bool
  current_streak : ℕ
  current_challenge_attempts : List (String × ℕ)
  scores : List ScoreResult
  total_score : ℤ
deriving DecidableEq

/-- A per-user statistics record, as initialized on first session start. -/
structure UserStats where
  total_sessions : ℕ
  total_play_time : ℚ
  total_challenges : ℕ
  total_interactions : ℕ
  consecutive_days : ℕ
  last_play_date : Option ℤ
  play_dates : List ℤ
  total_score : ℤ
  best_streak : ℕ
  avg_score : ℚ
deriving DecidableEq

/-- The fresh session dict built by start_session (counters zeroed,
active true). -/
def freshSession (sid uid : String) (now : ℚ) : Session :=
  { session_id := sid
    user_id := uid
    start_time := now
    end_time := none
    duration := 0
    challenges_attempted := 0
    interactions := []
    challenge_times := []
    active := true
    current_streak := 0
    current_challenge_attempts := []
    scores := []
    total_score := 0 }

/-- EventTracker._find_challenge_start / the reverse scan of
SessionAnalytics.log_challenge_complete: first challenge_start with the
given id when iterating the interaction list in reverse. -/
def findChallengeStart (ints : List Interaction) (cid : String) :
    Option Interaction :=
  ints.reverse.find? (fun i => i.isStartFor cid)

/-- The challenge_complete interaction dict appended on completion, with
score_result.get defaults 0 and poor for a missing score result. -/
def completeInteraction (cid : String) (is_correct : Bool) (now : ℚ)
    (sr : Option ScoreResult) : Interaction :=
  .complete cid is_correct now
    ((sr.map ScoreResult.score).getD 0)
    ((sr.map ScoreResult.performance).getD "poor")

namespace EventTracker

/-- EventTracker.log_challenge_start: append a challenge_start interaction,
bump challenges_attempted, and seed the attempt counter at 0 if absent. -/
def logChallengeStart (s : Session) (cid ctype : String) (animal : ℤ)
    (now : ℚ) : Session :=
  let s1 := { s with
    interactions := s.interactions ++ [.start cid ctype animal now now]
    challenges_attempted := s.challenges_attempted + 1 }
  if (lookupA s1.current_challenge_attempts cid).isSome then s1
  else { s1 with
    current_challenge_attempts := insertA s1.current_challenge_attempts cid 0 }

/-- EventTracker.log_challenge_complete: reverse-scan for a matching
challenge_start; when found, derive the duration from its captured start
instant and append a ChallengeTiming entry (attempt counter read with
dict default 1); always append the challenge_complete interaction.
Returns the duration together with the updated session. -/
def logChallengeComplete (s : Session) (cid : String) (is_correct : Bool)
    (score_result : Option ScoreResult) (now : ℚ) : ℚ × Session :=
  match findChallengeStart s.interactions cid with
  | some si =>
      let duration := now - si.startTimeD
      let s1 := { s with challenge_times := s.challenge_times ++ [({
        challenge_id := cid
        challenge_type := si.challengeTypeD
        duration := duration
        is_correct := is_correct
        attempts := (lookupA s.current_challenge_attempts cid).getD 1
        score := (score_result.map ScoreResult.score).getD 0
        performance := (score_result.map ScoreResult.performance).getD "poor"
        } : ChallengeTiming)] }
      (duration, { s1 with interactions :=
        s1.interactions ++ [completeInteraction cid is_correct now score_result] })
  | none =>
      (0, { s with interactions :=
        s.interactions ++ [completeInteraction cid is_correct now score_result] })

end EventTracker

namespace SessionAnalytics

/-- SessionAnalytics.log_challenge_complete (session_analytics.py lines
147-242): reverse-scan for the matching start, increment the attempt
counter, and — only when a start was found — compute the duration, score
the completion with the default composite strategy, update the streak,
append the score and the ChallengeTiming entry; always append the
challenge_complete interaction, bump the user's total_interactions, and
raise best_streak when exceeded.  Returns (score result, session, stats);
the score result is none exactly when the Python dict would be empty. -/
def logChallengeComplete (s : Session) (u : UserStats) (cid : String)
    (is_correct : Bool) (difficulty : ℤ) (time_limit : Option ℚ) (now : ℚ) :
    Option ScoreResult × Session × UserStats :=
  let startI := findChallengeStart s.interactions cid
  let attempts := (lookupA s.current_challenge_attempts cid).getD 0 + 1
  let s1 := { s with
    current_challenge_attempts := insertA s.current_challenge_attempts cid attempts }
  let step : Option ScoreResult × Session :=
    match startI with
    | some si =>
        let duration := now - si.startTimeD
        let ctx : ScoringContext := {
          time_taken := duration
          time_limit := time_limit.getD 30
          is_correct := is_correct
          attempts := attempts
          difficulty := difficulty
          streak := s1.current_streak }
        let sr := getDetailedResult defaultStrategy ctx
        let s2 :=
          if is_correct then { s1 with current_streak := s1.current_streak + 1 }
          else { s1 with current_streak := 0 }
        let s3 := { s2 with
          scores := s2.scores ++ [sr]
          total_score := s2.total_score + sr.score }
        let s4 := { s3 with challenge_times := s3.challenge_times ++ [({
          challenge_id := cid
          challenge_type := si.challengeTypeD
          duration := duration
          is_correct := is_correct
          attempts := attempts
          score := sr.score
          performance := sr.performance } : ChallengeTiming)] }
        (some sr, s4)
    | none => (none, s1)
  let sr := step.1
  let s5 : Session := { step.2 with
    interactions := step.2.interactions ++ [completeInteraction cid is_correct now sr] }
  let u1 : UserStats := { u with total_interactions := u.total_interactions + 1 }
  let u2 : UserStats :=
    if s5.current_streak > u1.best_streak then
      { u1 with best_streak := s5.current_streak }
    else u1
  (sr, s5, u2)

/-- The fields of get_session_summary. -/
structure SessionSummary where
  session_id : String
  user_id : String
  duration : ℚ
  challenges_attempted : ℕ
  total_interactions : ℕ
  interaction_breakdown : List (String × ℕ)
  avg_challenge_time : ℚ
  challenge_times : List ChallengeTiming
  start_time : ℚ
  end_time : Option ℚ
  active : Bool
  total_score : ℤ
  current_streak : ℕ
  scores : List ScoreResult
deriving DecidableEq

/-- One step of the interaction_counts accumulation of
get_session_summary: bump the count of a type, inserting it at the end
when new (Python dict insertion order). -/
def bumpCount (m : List (String × ℕ)) (k : String) : List (String × ℕ) :=
  if (m.find? (fun p => p.1 == k)).isSome then
    m.map (fun p => if p.1 == k then (p.1, p.2 + 1) else p)
  else m ++ [(k, 1)]

/-- The interaction_counts dict of get_session_summary. -/
def countByType (l : List Interaction) : List (String × ℕ) :=
  l.foldl (fun acc i => bumpCount acc i.itype) []

/-- SessionAnalytics.get_session_summary (for a session that exists). -/
def sessionSummary (s : Session) : SessionSummary :=
  let avg : ℚ :=
    if s.challenge_times = [] then 0
    else (s.challenge_times.map ChallengeTiming.duration).sum /
      (s.challenge_times.length : ℚ)
  { session_id := s.session_id
    user_id := s.user_id
    duration := s.duration
    challenges_attempted := s.challenges_attempted
    total_interactions := s.interactions.length
    interaction_breakdown := countByType s.interactions
    avg_challenge_time := pyRoundTo2 avg
    challenge_times := s.challenge_times
    start_time := s.start_time
    end_time := s.end_time
    active := s.active
    total_score := s.total_score
    current_streak := s.current_streak
    scores := s.scores }

/-- SessionAnalytics.end_session (session_analytics.py lines 268-307), for
a session that exists: when the session is already inactive it returns the
current summary without touching the session or the user stats; otherwise
it computes the duration, stamps end_time, flips active, adds play time and
session score to the user stats and recomputes the average score. -/
def endSession (s : Session) (u : UserStats) (now : ℚ) :
    Session × UserStats × SessionSummary :=
  if s.active = false then (s, u, sessionSummary s)
  else
    let duration := now - s.start_time
    let s1 := { s with end_time := some now, duration := duration, active := false }
    let u1 := { u with
      total_play_time := u.total_play_time + duration
      total_score := u.total_score + s1.total_score }
    let u2 :=
      if u1.total_challenges > 0 then
        { u1 with avg_score := (u1.total_score : ℚ) / (u1.total_challenges : ℚ) }
      else u1
    (s1, u2, sessionSummary s1)

end SessionAnalytics

namespace StreakManager

/-- StreakManager.update_consecutive_days /
SessionAnalytics._update_consecutive_days: add today to play_dates when
absent; with a previous last_play_date, a gap of exactly one day
increments consecutive_days, a gap of more than one day resets it to 1,
and any other gap leaves it unchanged; with no previous date it becomes 1.
last_play_date always becomes today.  Dates are day numbers. -/
def updateConsecutiveDays (u : UserStats) (today : ℤ) : UserStats :=
  let u1 :=
    if today ∈ u.play_dates then u
    else { u with play_dates := u.play_dates ++ [today] }
  let u2 :=
    match u1.last_play_date with
    | some last =>
        let diff := today - last
        if diff = 1 then { u1 with consecutive_days := u1.consecutive_days + 1 }
        else if diff > 1 then { u1 with consecutive_days := 1 }
        else u1
    | none => { u1 with consecutive_days := 1 }
  { u2 with last_play_date := some today }

end StreakManager

/-- The timing state of a TimedDecorator (timed_decorator.py): the
configured limit and the optional recorded start and end instants. -/
structure TimedDecorator where
  time_limit : ℚ
  start_rec : Option ℚ
  end_rec : Option ℚ
deriving DecidableEq

namespace TimedDecorator

/-- TimedDecorator.__init__: rejects a non-positive time limit. -/
def mk0 (limit : ℚ) : Except String TimedDecorator :=
  if limit ≤ 0 then .error "time_limit deve ser positivo"
  else .ok { time_limit := limit, start_rec := none, end_rec := none }

/-- TimedDecorator.is_timer_running. -/
def isTimerRunning (t : TimedDecorator) : Bool :=
  t.start_rec.isSome && t.end_rec.isNone

/-- TimedDecorator.get_elapsed_time at instant now: end minus start when
stopped, now minus start when running, NotStarted error otherwise. -/
def getElapsedTime (t : TimedDecorator) (now : ℚ) : Except String ℚ :=
  match t.start_rec with
  | none => .error "Cronometro nao foi iniciado"
  | some st => .ok ((t.end_rec.getD now) - st)

/-- TimedDecorator.validate_answer at instant now, with the wrapped
challenge's validation function: stop the timer if running, then refuse a
late answer, else delegate. -/
def validateAnswer (t : TimedDecorator) (now : ℚ) (check : String → Bool)
    (answer : String) : Except String (Bool × TimedDecorator) :=
  let t1 := if t.isTimerRunning then { t with end_rec := some now } else t
  match t1.getElapsedTime now with
  | .error e => .error e
  | .ok elapsed =>
      if elapsed ≥ t1.time_limit then .ok (false, t1)
      else .ok (check answer, t1)

end TimedDecorator

/-- Modelled from the spec (section 4.6: the most recent unmatched
challenge_start): process the interaction list in order keeping, per
challenge id, a stack of the challenge_start interactions not yet consumed
by a challenge_complete of the same id; the head of the final stack is the
most recent unmatched start for that id.  The source has no such
bookkeeping; this definition exists to compare the spec's words with the
code's reverse scan. -/
def specUnmatchedStack (ints : List Interaction) (cid : String) :
    List Interaction :=
  ints.foldl
    (fun stack i =>
      match i with
      | .start c _ _ _ _ => if c == cid then i :: stack else stack
      | .complete c _ _ _ _ => if c == cid then stack.tail else stack
      | .generic _ _ _ => stack)
    []

/-- Modelled from the spec: the most recent unmatched challenge_start with
the given challenge id. -/
def specMostRecentUnmatchedStart (ints : List Interaction) (cid : String) :
    Option Interaction :=
  (specUnmatchedStack ints cid).head?

/-! Concrete inputs used by counterexamples and witnesses. -/

/-- A correct first-attempt answer well inside the time limit. -/
def ctx0 : ScoringContext :=
  { time_taken := 1
    time_limit := 30
    is_correct := true
    attempts := 1
    difficulty := 3
    streak := 0 }

/-- The same context with an incorrect answer. -/
def ctxWrong : ScoringContext := { ctx0 with is_correct := false }

/-- Two strategies weighted 0.505 each: the sum 1.01 sits exactly on the
upper edge of the weight-validation tolerance. -/
def exEdgeWeights : List (BaseStrategy × ℚ) :=
  [(.timeBased, 505 / 1000), (.accuracyBased, 505 / 1000)]

/-- A single strategy with weight 0.9 (below tolerance). -/
def exUnderWeights : List (BaseStrategy × ℚ) := [(.timeBased, 9 / 10)]

/-- First start of challenge C, captured at instant 1. -/
def exStart1 : Interaction := .start "C" "audio" 1 1 1

/-- Second start of challenge C, captured at instant 2. -/
def exStart2 : Interaction := .start "C" "audio" 1 2 2

/-- A completion of challenge C already in the log: under the spec's
stack matching it consumes exStart2, leaving exStart1 unmatched. -/
def exDone : Interaction := .complete "C" true 3 0 "poor"

/-- A session whose log holds two starts of C and one completion. -/
def exSession : Session :=
  { freshSession "s1" "u1" 0 with interactions := [exStart1, exStart2, exDone] }

/-- An already-ended session. -/
def exEnded : Session :=
  { freshSession "s2" "u1" 0 with
    active := false, end_time := some 7, duration := 7 }

/-- User stats with a three-day streak last played on day 4. -/
def exStats : UserStats :=
  { total_sessions := 1
    total_play_time := 0
    total_challenges := 2
    total_interactions := 5
    consecutive_days := 3
    last_play_date := some 4
    play_dates := [2, 3, 4]
    total_score := 0
    best_streak := 2
    avg_score := 0 }

/-- A timer started at instant 0 with a 30 second limit, still running. -/
def exTimer : TimedDecorator :=
  { time_limit := 30, start_rec := some 0, end_rec := none }

/-! Helper lemmas. -/

/-- Python rounding never goes below the floor. -/
theorem floor_le_pyRound (q : ℚ) : ⌊q⌋ ≤ pyRound q := by
  simp only [pyRound]
  split_ifs <;> omega

/-- Python rounding never goes above the ceiling. -/
theorem pyRound_le_ceil (q : ℚ) : pyRound q ≤ ⌈q⌉ := by
  simp only [pyRound]
  split_ifs with h1 h2 h3
  · exact Int.floor_le_ceil q
  · have hfr : (0 : ℚ) < q - ⌊q⌋ := by linarith
    exact Int.add_one_le_ceil_iff.mpr (by linarith [Int.floor_le q])
  · exact Int.floor_le_ceil q
  · have hge : (1 : ℚ) / 2 ≤ q - ⌊q⌋ := not_lt.mp h1
    exact Int.add_one_le_ceil_iff.mpr (by linarith)

/-- A nonnegative rational rounds to a nonnegative integer. -/
theorem pyRound_nonneg {q : ℚ} (h : 0 ≤ q) : 0 ≤ pyRound q :=
  le_trans (Int.le_floor.mpr (by exact_mod_cast h)) (floor_le_pyRound q)

/-- Rounding respects an integer upper bound. -/
theorem pyRound_le_of_le {q : ℚ} {n : ℤ} (h : q ≤ (n : ℚ)) : pyRound q ≤ n :=
  le_trans (pyRound_le_ceil q) (Int.ceil_le.mpr h)

/-- Every concrete strategy returns a nonnegative score. -/
theorem baseScore_nonneg (b : BaseStrategy) (c : ScoringContext) :
    0 ≤ baseScore b c := by
  cases b <;>
    simp only [baseScore, timeBasedScore, accuracyScore, streakScore,
      difficultyScore] <;>
    split_ifs <;> omega

/-- Every concrete strategy returns at most 100. -/
theorem baseScore_le_100 (b : BaseStrategy) (c : ScoringContext) :
    baseScore b c ≤ 100 := by
  cases b <;>
    simp only [baseScore, timeBasedScore, accuracyScore, streakScore,
      difficultyScore] <;>
    split_ifs <;> omega

/-- Unfolding of the weighted total on a cons cell. -/
theorem weightedTotal_cons (p : BaseStrategy × ℚ) (t : List (BaseStrategy × ℚ))
    (c : ScoringContext) :
    weightedTotal (p :: t) c = (baseScore p.1 c : ℚ) * p.2 + weightedTotal t c := by
  simp [weightedTotal]

/-- Unfolding of the weight sum on a cons cell. -/
theorem weightSum_cons (p : BaseStrategy × ℚ) (t : List (BaseStrategy × ℚ)) :
    weightSum (p :: t) = p.2 + weightSum t := by
  simp [weightSum]

/-- With nonnegative weights the accumulated weighted total is nonneg. -/
theorem weightedTotal_nonneg (c : ScoringContext) :
    ∀ ws : List (BaseStrategy × ℚ), (∀ p ∈ ws, 0 ≤ p.2) →
      0 ≤ weightedTotal ws c := by
  intro ws
  induction ws with
  | nil => intro; simp [weightedTotal]
  | cons p t ih =>
      intro h
      rw [weightedTotal_cons]
      have h1 : (0 : ℚ) ≤ ((baseScore p.1 c : ℤ) : ℚ) := by
        exact_mod_cast baseScore_nonneg p.1 c
      have h2 : 0 ≤ p.2 := h p (List.mem_cons_self p t)
      have h3 : 0 ≤ weightedTotal t c :=
        ih (fun q hq => h q (List.mem_cons_of_mem p hq))
      have h4 := mul_nonneg h1 h2
      linarith

/-- With nonnegative weights the accumulated weighted total is bounded by
100 times the weight sum. -/
theorem weightedTotal_le (c : ScoringContext) :
    ∀ ws : List (BaseStrategy × ℚ), (∀ p ∈ ws, 0 ≤ p.2) →
      weightedTotal ws c ≤ 100 * weightSum ws := by
  intro ws
  induction ws with
  | nil => intro; simp [weightedTotal, weightSum]
  | cons p t ih =>
      intro h
      rw [weightedTotal_cons, weightSum_cons, mul_add]
      have h2 : 0 ≤ p.2 := h p (List.mem_cons_self p t)
      have hs : ((baseScore p.1 c : ℤ) : ℚ) ≤ 100 := by
        exact_mod_cast baseScore_le_100 p.1 c
      have h5 : (baseScore p.1 c : ℚ) * p.2 ≤ 100 * p.2 :=
        mul_le_mul_of_nonneg_right hs h2
      have h6 : weightedTotal t c ≤ 100 * weightSum t :=
        ih (fun q hq => h q (List.mem_cons_of_mem p hq))
      linarith

/-- A validly weighted composite of nonnegatively weighted concrete
strategies scores between 0 and 101: the tolerance allows the weight sum
to reach 1.01, hence the rounded total to reach 101. -/
theorem compositeScore_range (c : ScoringContext)
    (ws : List (BaseStrategy × ℚ)) (hv : weightsValid ws)
    (h : ∀ p ∈ ws, 0 ≤ p.2) :
    0 ≤ compositeScore ws c ∧ compositeScore ws c ≤ 101 := by
  have h0 : 0 ≤ weightedTotal ws c := weightedTotal_nonneg c ws h
  have h1 : weightedTotal ws c ≤ 100 * weightSum ws := weightedTotal_le c ws h
  have h2 : 100 * weightSum ws ≤ 101 := by
    have := hv.2
    linarith
  refine ⟨pyRound_nonneg h0, ?_⟩
  exact pyRound_le_of_le (by push_cast; linarith)

/-- A find? over the reversed list returns the last element satisfying the
predicate: the list splits as l1 ++ x :: l2 with the hit x and nothing
satisfying the predicate in the tail l2. -/
theorem find?_reverse_decomp {α : Type} (p : α → Bool) (l : List α)
    (h : ∃ x ∈ l, p x = true) :
    ∃ l1 x l2, l = l1 ++ x :: l2 ∧ p x = true ∧ (∀ y ∈ l2, p y = false) ∧
      l.reverse.find? p = some x := by
  induction l using List.reverseRecOn with
  | nil => simp at h
  | append_singleton t a ih =>
      by_cases hpa : p a = true
      · refine ⟨t, a, [], by simp, hpa, by simp, ?_⟩
        rw [List.reverse_append]
        simp [List.find?_cons_of_pos, hpa]
      · have hpaf : p a = false := by
          cases hpa2 : p a
          · rfl
          · exact absurd hpa2 hpa
        have ht : ∃ x ∈ t, p x = true := by
          rcases h with ⟨x, hx, hpx⟩
          rcases List.mem_append.mp hx with h1 | h2
          · exact ⟨x, h1, hpx⟩
          · have : x = a := by simpa using h2
            subst this
            exact absurd hpx hpa
        rcases ih ht with ⟨l1, x, l2, heq, hpx, hl2, hfind⟩
        refine ⟨l1, x, l2 ++ [a], by simp [heq], hpx, ?_, ?_⟩
        · intro y hy
          rcases List.mem_append.mp hy with h1 | h2
          · exact hl2 y h1
          · have : y = a := by simpa using h2
            subst this
            exact hpaf
        · rw [List.reverse_append]
          simpa [List.find?_cons_of_neg, hpaf] using hfind

/-! Claim theorems. -/

/-- C8: for every scoring context in which is_correct is false, each of
the four concrete scoring strategies (time-based, accuracy-based,
streak-based, difficulty-based) returns a score of exactly 0, regardless
of the other context fields. -/
theorem incorrect_answer_scores_zero (c : ScoringContext)
    (h : c.is_correct = false) : ∀ b : BaseStrategy, baseScore b c = 0 := by
  intro b
  cases b <;>
    simp [baseScore, timeBasedScore, accuracyScore, streakScore,
      difficultyScore, h]

/-- Witness for C8 at a concrete incorrect-answer context. -/
theorem incorrect_answer_scores_zero_witness :
    baseScore .timeBased ctxWrong = 0 ∧ baseScore .accuracyBased ctxWrong = 0 ∧
    baseScore .streakBased ctxWrong = 0 ∧ baseScore .difficultyBased ctxWrong = 0 := by
  have h := incorrect_answer_scores_zero ctxWrong (by decide)
  exact ⟨h .timeBased, h .accuracyBased, h .streakBased, h .difficultyBased⟩

/-- C3: constructing a composite from (strategy, weight) pairs fails with
an invalid-argument error iff the weight sum is not within 0.01 of 1, the
check runs at construction, and any composite that was constructed
successfully carries weights that passed validation. -/
theorem composite_weight_validation_iff (ws : List (BaseStrategy × ℚ)) :
    ((∃ e, mkComposite ws = .error e) ↔ ¬ |weightSum ws - 1| ≤ 1 / 100) ∧
    (∀ v, mkComposite ws = .ok v → v = ws ∧ weightsValid ws) := by
  have hequiv : weightsValid ws ↔ |weightSum ws - 1| ≤ 1 / 100 := by
    unfold weightsValid
    rw [abs_le]
    constructor <;> intro h <;> constructor <;> linarith [h.1, h.2]
  constructor
  · constructor
    · rintro ⟨e, he⟩ habs
      unfold mkComposite at he
      rw [if_pos (hequiv.mpr habs)] at he
      exact absurd he (by simp)
    · intro hnot
      refine ⟨"Pesos devem somar 1.0", ?_⟩
      unfold mkComposite
      rw [if_neg (fun hv => hnot (hequiv.mp hv))]
  · intro v hv
    unfold mkComposite at hv
    by_cases hw : weightsValid ws
    · rw [if_pos hw] at hv
      injection hv with h
      subst h
      exact ⟨rfl, hw⟩
    · rw [if_neg hw] at hv
      exact absurd hv (by simp)

/-- Witness for C3: weights summing to 0.9 are rejected at construction. -/
theorem composite_weight_validation_iff_witness :
    ∃ e, mkComposite exUnderWeights = .error e :=
  (composite_weight_validation_iff exUnderWeights).1.mpr (by
    have h : weightSum exUnderWeights = 9 / 10 := by
      norm_num [exUnderWeights, weightSum]
    rw [h, show (9 : ℚ) / 10 - 1 = -(1 / 10) by norm_num, abs_neg,
      abs_of_nonneg (by norm_num : (0 : ℚ) ≤ 1 / 10)]
    norm_num)

/-- C2 counterexample: the composite of time-based and accuracy-based
scoring with weights 0.505 and 0.505 passes the construction-time weight
validation (the sum 1.01 is inside the inclusive tolerance), yet on a
correct fast first attempt get_detailed_result reports a score of 101,
outside the claimed 0 to 100 range. -/
theorem composite_score_can_exceed_100 :
    weightsValid exEdgeWeights ∧ (∀ p ∈ exEdgeWeights, 0 ≤ p.2) ∧
    (getDetailedResult (.composite exEdgeWeights) ctx0).score = 101 := by
  refine ⟨by norm_num [weightsValid, weightSum, exEdgeWeights],
    by norm_num [exEdgeWeights], ?_⟩
  norm_num [getDetailedResult, strategyScore, compositeScore, weightedTotal,
    exEdgeWeights, baseScore, timeBasedScore, accuracyScore, ctx0, pyRound]

/-- C2 (amended): for every scoring context, each of the four concrete
strategies scores within 0 to 100; a composite whose nonnegative weights
passed the construction-time validation scores within 0 to 101 — the
±0.01 tolerance on the weight sum admits exactly one point above 100 —
and these bounds apply to the score field get_detailed_result reports. -/
theorem detailed_result_score_range (c : ScoringContext) :
    (∀ b : BaseStrategy,
      0 ≤ (getDetailedResult (.base b) c).score ∧
      (getDetailedResult (.base b) c).score ≤ 100) ∧
    (∀ ws : List (BaseStrategy × ℚ), weightsValid ws → (∀ p ∈ ws, 0 ≤ p.2) →
      0 ≤ (getDetailedResult (.composite ws) c).score ∧
      (getDetailedResult (.composite ws) c).score ≤ 101) := by
  constructor
  · intro b
    simp only [getDetailedResult, strategyScore]
    exact ⟨baseScore_nonneg b c, baseScore_le_100 b c⟩
  · intro ws hv h
    simp only [getDetailedResult, strategyScore]
    exact compositeScore_range c ws hv h

/-- Witness for C2 at the default composite weights and a concrete
context. -/
theorem detailed_result_score_range_witness :
    0 ≤ (getDetailedResult (.composite [(.timeBased, 2 / 5),
        (.accuracyBased, 2 / 5), (.streakBased, 1 / 5)]) ctx0).score ∧
    (getDetailedResult (.composite [(.timeBased, 2 / 5),
        (.accuracyBased, 2 / 5), (.streakBased, 1 / 5)]) ctx0).score ≤ 101 :=
  (detailed_result_score_range ctx0).2
    [(.timeBased, 2 / 5), (.accuracyBased, 2 / 5), (.streakBased, 1 / 5)]
    (by norm_num [weightsValid, weightSum]) (by norm_num)

/-- C1 counterexample: with two starts of challenge C (instants 1 and 2)
and one completion already in the log, the spec's most recent unmatched
start is the one at instant 1, but the code's reverse scan returns the
start at instant 2 and the logged duration is computed from it — not from
the unmatched start's instant. -/
theorem find_start_ignores_matching_counterexample :
    (∃ i ∈ exSession.interactions, i.isStartFor "C" = true) ∧
    specMostRecentUnmatchedStart exSession.interactions "C" = some exStart1 ∧
    findChallengeStart exSession.interactions "C" = some exStart2 ∧
    (EventTracker.logChallengeComplete exSession "C" true none 10).1 = 8 ∧
    10 - exStart1.startTimeD = 9 := by
  refine ⟨by decide, by decide, by decide, ?_, ?_⟩
  · have hf : findChallengeStart exSession.interactions "C" = some exStart2 := by
      decide
    unfold EventTracker.logChallengeComplete
    rw [hf]
    norm_num [Interaction.startTimeD, exStart2]
  · norm_num [Interaction.startTimeD, exStart1]

/-- C1 (amended): when the session's interaction list contains at least
one challenge_start for the given challenge id, log_challenge_complete
matches the completion to the most recent challenge_start with that id —
regardless of whether an earlier completion already consumed it — found
by scanning the interaction list in reverse, and the recorded duration is
computed from that start's captured instant. -/
theorem log_complete_uses_most_recent_start (s : Session) (cid : String)
    (b : Bool) (sr : Option ScoreResult) (now : ℚ)
    (h : ∃ i ∈ s.interactions, i.isStartFor cid = true) :
    ∃ l1 x l2, s.interactions = l1 ++ x :: l2 ∧ x.isStartFor cid = true ∧
      (∀ y ∈ l2, y.isStartFor cid = false) ∧
      findChallengeStart s.interactions cid = some x ∧
      (EventTracker.logChallengeComplete s cid b sr now).1 = now - x.startTimeD := by
  rcases find?_reverse_decomp (fun i => i.isStartFor cid) s.interactions h with
    ⟨l1, x, l2, heq, hpx, hl2, hfind⟩
  have hf : findChallengeStart s.interactions cid = some x := hfind
  refine ⟨l1, x, l2, heq, hpx, hl2, hf, ?_⟩
  unfold EventTracker.logChallengeComplete
  rw [hf]

/-- Witness for C1 on the concrete two-start session. -/
theorem log_complete_uses_most_recent_start_witness :
    ∃ l1 x l2, exSession.interactions = l1 ++ x :: l2 ∧
      x.isStartFor "C" = true ∧ (∀ y ∈ l2, y.isStartFor "C" = false) ∧
      findChallengeStart exSession.interactions "C" = some x ∧
      (EventTracker.logChallengeComplete exSession "C" true none 10).1 =
        10 - x.startTimeD :=
  log_complete_uses_most_recent_start exSession "C" true none 10 (by decide)

/-- When no interaction is a challenge_start for the id, the reverse scan
comes back empty. -/
theorem find_none_of_no_start (s : Session) (cid : String)
    (h : ∀ i ∈ s.interactions, i.isStartFor cid = false) :
    findChallengeStart s.interactions cid = none := by
  unfold findChallengeStart
  rw [List.find?_eq_none]
  intro a ha
  have := h a (List.mem_reverse.mp ha)
  simp [this]

/-- A fresh session's correct-answer streak is below any best streak:
together with the preservation lemma below this makes
current_streak less-or-equal best_streak an invariant of every reachable
state (the only other operations never touch either field). -/
theorem fresh_session_streak_le_best (sid uid : String) (now : ℚ)
    (u : UserStats) : (freshSession sid uid now).current_streak ≤ u.best_streak := by
  simp [freshSession]

/-- log_challenge_complete preserves the invariant that the session's
current streak never exceeds the user's best streak: a raised streak is
immediately folded into best_streak in the same call. -/
theorem log_complete_preserves_streak_le_best (s : Session) (u : UserStats)
    (cid : String) (b : Bool) (diff : ℤ) (tl : Option ℚ) (now : ℚ)
    (hinv : s.current_streak ≤ u.best_streak) :
    (SessionAnalytics.logChallengeComplete s u cid b diff tl now).2.1.current_streak ≤
    (SessionAnalytics.logChallengeComplete s u cid b diff tl now).2.2.best_streak := by
  unfold SessionAnalytics.logChallengeComplete
  cases hfs : findChallengeStart s.interactions cid <;> simp [hfs] <;>
    split_ifs <;> simp_all

/-- C4: a logComplete call with a challenge id that has no prior
challenge_start in the session's interaction list returns duration 0,
appends no ChallengeTiming record, produces an empty score result, and
still appends the challenge_complete interaction — in both the
EventTracker component and the integrated SessionAnalytics method. -/
theorem log_complete_without_start (s : Session) (u : UserStats)
    (cid : String) (b : Bool) (diff : ℤ) (tl : Option ℚ)
    (sr : Option ScoreResult) (now : ℚ)
    (h : ∀ i ∈ s.interactions, i.isStartFor cid = false) :
    (EventTracker.logChallengeComplete s cid b sr now).1 = 0 ∧
    (EventTracker.logChallengeComplete s cid b sr now).2.challenge_times =
      s.challenge_times ∧
    (EventTracker.logChallengeComplete s cid b sr now).2.interactions =
      s.interactions ++ [completeInteraction cid b now sr] ∧
    (SessionAnalytics.logChallengeComplete s u cid b diff tl now).1 = none ∧
    (SessionAnalytics.logChallengeComplete s u cid b diff tl now).2.1.challenge_times =
      s.challenge_times ∧
    (SessionAnalytics.logChallengeComplete s u cid b diff tl now).2.1.interactions =
      s.interactions ++ [completeInteraction cid b now none] := by
  have hf := find_none_of_no_start s cid h
  unfold EventTracker.logChallengeComplete SessionAnalytics.logChallengeComplete
  rw [hf]
  simp

/-- Witness for C4: completing challenge D in a session that only ever
started challenge C. -/
theorem log_complete_without_start_witness :
    (EventTracker.logChallengeComplete exSession "D" true none 10).1 = 0 ∧
    (EventTracker.logChallengeComplete exSession "D" true none 10).2.challenge_times =
      exSession.challenge_times ∧
    (EventTracker.logChallengeComplete exSession "D" true none 10).2.interactions =
      exSession.interactions ++ [completeInteraction "D" true 10 none] ∧
    (SessionAnalytics.logChallengeComplete exSession exStats "D" true 3 none 10).1 =
      none ∧
    (SessionAnalytics.logChallengeComplete exSession exStats "D" true 3 none
      10).2.1.challenge_times = exSession.challenge_times ∧
    (SessionAnalytics.logChallengeComplete exSession exStats "D" true 3 none
      10).2.1.interactions =
      exSession.interactions ++ [completeInteraction "D" true 10 none] :=
  log_complete_without_start exSession exStats "D" true 3 none none 10 (by decide)

/-- C10: on a call with no matching start (in any state satisfying the
reachable-state invariant that the session streak does not exceed the
user's best streak), log_challenge_complete returns an empty score result
and changes nothing except the per-challenge attempt counter, the
interaction list, and the user's total_interactions: in particular
current_streak, scores, total_score, challenge_times,
challenges_attempted and best_streak are all untouched — an incorrect
completion without a preceding start does not reset the streak. -/
theorem log_complete_no_match_frame (s : Session) (u : UserStats)
    (cid : String) (b : Bool) (diff : ℤ) (tl : Option ℚ) (now : ℚ)
    (h : ∀ i ∈ s.interactions, i.isStartFor cid = false)
    (hinv : s.current_streak ≤ u.best_streak) :
    SessionAnalytics.logChallengeComplete s u cid b diff tl now =
      (none,
       { s with
         current_challenge_attempts :=
           insertA s.current_challenge_attempts cid
             ((lookupA s.current_challenge_attempts cid).getD 0 + 1)
         interactions := s.interactions ++ [completeInteraction cid b now none] },
       { u with total_interactions := u.total_interactions + 1 }) := by
  have hf := find_none_of_no_start s cid h
  unfold SessionAnalytics.logChallengeComplete
  rw [hf]
  simp
  omega

/-- Witness for C10: an incorrect completion of challenge D without a
start, in the concrete session. -/
theorem log_complete_no_match_frame_witness :
    SessionAnalytics.logChallengeComplete exSession exStats "D" false 3 none 10 =
      (none,
       { exSession with
         current_challenge_attempts :=
           insertA exSession.current_challenge_attempts "D"
             ((lookupA exSession.current_challenge_attempts "D").getD 0 + 1)
         interactions := exSession.interactions ++
           [completeInteraction "D" false 10 none] },
       { exStats with total_interactions := exStats.total_interactions + 1 }) :=
  log_complete_no_match_frame exSession exStats "D" false 3 none 10
    (by decide) (by decide)

/-- C5: end_session on an already-inactive session is a pure read — it
returns the current state and summary untouched, recomputing neither
end_time nor duration and adding nothing to the user's play time — and
hence ending a session twice equals ending it once, in session, user
stats, and returned summary. -/
theorem end_session_idempotent (s : Session) (u : UserStats) (t1 t2 : ℚ) :
    (s.active = false →
      SessionAnalytics.endSession s u t1 = (s, u, SessionAnalytics.sessionSummary s)) ∧
    SessionAnalytics.endSession (SessionAnalytics.endSession s u t1).1
        (SessionAnalytics.endSession s u t1).2.1 t2 =
      SessionAnalytics.endSession s u t1 := by
  have hinact : ∀ (s2 : Session) (u2 : UserStats) (t : ℚ), s2.active = false →
      SessionAnalytics.endSession s2 u2 t = (s2, u2, SessionAnalytics.sessionSummary s2) := by
    intro s2 u2 t h
    unfold SessionAnalytics.endSession
    rw [if_pos h]
  have h1 : (SessionAnalytics.endSession s u t1).1.active = false := by
    unfold SessionAnalytics.endSession
    split_ifs with hs
    · exact hs
    · simp
  have h2 : (SessionAnalytics.endSession s u t1).2.2 =
      SessionAnalytics.sessionSummary (SessionAnalytics.endSession s u t1).1 := by
    unfold SessionAnalytics.endSession
    split_ifs <;> simp
  refine ⟨hinact s u t1, ?_⟩
  rw [hinact _ _ t2 h1, ← h2]

/-- Witness for C5 on a concrete ended session. -/
theorem end_session_idempotent_witness :
    SessionAnalytics.endSession exEnded exStats 9 =
      (exEnded, exStats, SessionAnalytics.sessionSummary exEnded) :=
  (end_session_idempotent exEnded exStats 9 9).1 rfl

/-- update_consecutive_days always stamps today as the last play date. -/
theorem ucd_last_play_date (u : UserStats) (today : ℤ) :
    (StreakManager.updateConsecutiveDays u today).last_play_date = some today := rfl

/-- update_consecutive_days leaves today recorded among the play dates. -/
theorem ucd_play_dates_mem (u : UserStats) (today : ℤ) :
    today ∈ (StreakManager.updateConsecutiveDays u today).play_dates := by
  unfold StreakManager.updateConsecutiveDays
  by_cases hmem : today ∈ u.play_dates <;>
    cases hl : u.last_play_date <;>
    simp [hmem, hl] <;> split_ifs <;> simp [hmem]

/-- The consecutive-days counter after update_consecutive_days, as a
function of the previous last_play_date. -/
theorem ucd_consecutive_days (u : UserStats) (today : ℤ) :
    (StreakManager.updateConsecutiveDays u today).consecutive_days =
      match u.last_play_date with
      | none => 1
      | some last =>
          if today - last = 1 then u.consecutive_days + 1
          else if today - last > 1 then 1
          else u.consecutive_days := by
  unfold StreakManager.updateConsecutiveDays
  by_cases hmem : today ∈ u.play_dates <;>
    cases hl : u.last_play_date <;>
    simp [hmem, hl] <;> split_ifs <;> rfl

/-- C6: update_consecutive_days called twice on the same day leaves
consecutive_days unchanged; called on the day right after last_play_date
it increments it; called after a gap of more than one day it resets it to
1; with last_play_date unset it sets it to 1; and it always sets
last_play_date to today and records today among the play dates. -/
theorem update_consecutive_days_cases (u : UserStats) (today : ℤ) :
    ((StreakManager.updateConsecutiveDays
        (StreakManager.updateConsecutiveDays u today) today).consecutive_days
      = (StreakManager.updateConsecutiveDays u today).consecutive_days)
    ∧ (∀ d, u.last_play_date = some d → today = d + 1 →
        (StreakManager.updateConsecutiveDays u today).consecutive_days =
          u.consecutive_days + 1)
    ∧ (∀ d, u.last_play_date = some d → today - d > 1 →
        (StreakManager.updateConsecutiveDays u today).consecutive_days = 1)
    ∧ (u.last_play_date = none →
        (StreakManager.updateConsecutiveDays u today).consecutive_days = 1)
    ∧ ((StreakManager.updateConsecutiveDays u today).last_play_date = some today)
    ∧ (today ∈ (StreakManager.updateConsecutiveDays u today).play_dates) := by
  refine ⟨?_, ?_, ?_, ?_, ucd_last_play_date u today, ucd_play_dates_mem u today⟩
  · rw [ucd_consecutive_days, ucd_last_play_date]
    simp
  · intro d hd ht
    rw [ucd_consecutive_days, hd]
    simp [ht]
  · intro d hd ht
    rw [ucd_consecutive_days, hd]
    have h1 : ¬ today - d = 1 := by omega
    simp [h1, ht]
  · intro hd
    rw [ucd_consecutive_days, hd]

/-- Witness for C6: playing on day 5 after day 4 increments the streak,
day 7 after day 4 resets it, and a second update on day 5 is a no-op on
the counter. -/
theorem update_consecutive_days_cases_witness :
    (StreakManager.updateConsecutiveDays exStats 5).consecutive_days =
      exStats.consecutive_days + 1 ∧
    (StreakManager.updateConsecutiveDays exStats 7).consecutive_days = 1 ∧
    (StreakManager.updateConsecutiveDays
        (StreakManager.updateConsecutiveDays exStats 5) 5).consecutive_days =
      (StreakManager.updateConsecutiveDays exStats 5).consecutive_days :=
  ⟨(update_consecutive_days_cases exStats 5).2.1 4 rfl (by norm_num),
   (update_consecutive_days_cases exStats 7).2.2.1 4 rfl (by norm_num),
   (update_consecutive_days_cases exStats 5).1⟩

/-- C7: for a TimedDecorator whose timer has been started,
validate_answer succeeds, leaves the timer stopped (auto-stopping it when
it was still running), and whenever the elapsed time at the call reached
the time limit the reported validity is false regardless of the wrapped
challenge's own validation — a late answer can never be marked correct. -/
theorem timed_validate_late_incorrect (t : TimedDecorator) (st now : ℚ)
    (check : String → Bool) (answer : String) (h : t.start_rec = some st) :
    ∃ r t2, TimedDecorator.validateAnswer t now check answer = .ok (r, t2) ∧
      t2.end_rec.isSome = true ∧
      ((t.end_rec.getD now) - st ≥ t.time_limit → r = false) := by
  unfold TimedDecorator.validateAnswer TimedDecorator.isTimerRunning
    TimedDecorator.getElapsedTime
  cases he : t.end_rec <;> simp [h, he] <;> split_ifs <;>
    cases hc : check answer <;> simp [hc, he] <;> linarith

/-- Witness for C7: answering at instant 40 on a running timer started at
0 with a 30 second limit stops the timer and is rejected even though the
wrapped challenge accepts every answer. -/
theorem timed_validate_late_incorrect_witness :
    ∃ r t2, TimedDecorator.validateAnswer exTimer 40 (fun _ => true) "late" =
        .ok (r, t2) ∧ t2.end_rec.isSome = true ∧ r = false := by
  obtain ⟨r, t2, h1, h2, h3⟩ :=
    timed_validate_late_incorrect exTimer 0 40 (fun _ => true) "late" rfl
  refine ⟨r, t2, h1, h2, h3 ?_⟩
  simp [exTimer]
  norm_num

end DiaNoite
